import Mathlib

/-!
Shallow embedding of the concurrent, cancellable blocking I/O coordinator of
`common/src/jni/main/cpp/org_conscrypt_NativeCrypto.cpp`:

* `AppData` (the per-connection shared state: the `aliveAndKicking` flag, the
  `waitingThreads` counter and the emergency self-pipe, whose content we model
  as the number of not-yet-drained wake bytes);
* `sslNotify` (the waker writing one byte to the self-pipe, restoring errno);
* `NativeCrypto_SSL_interrupt` (sets the flag to 0 and notifies twice);
* `sslSelect` (the poll loop over the socket and the self-pipe);
* `sslRead` / `sslWrite` (the operation driver loops around `SSL_read` /
  `SSL_write`), together with the result mapping performed by the JNI entry
  points `NativeCrypto_SSL_read` / `NativeCrypto_SSL_write`.

The external world (the TLS engine, the OS syscalls, concurrent interrupts)
is modelled by explicit traces of per-iteration events that the driver
consumes; the drivers return `Option`, with `none` for the executions whose
trace ends before the loop does.
-/

namespace Conscrypt

/-- SSL_ERROR_NONE from the engine headers. -/
def SSL_ERROR_NONE : Int := 0

/-- SSL_ERROR_WANT_READ from the engine headers. -/
def SSL_ERROR_WANT_READ : Int := 2

/-- SSL_ERROR_WANT_WRITE from the engine headers. -/
def SSL_ERROR_WANT_WRITE : Int := 3

/-- SSL_ERROR_SYSCALL from the engine headers. -/
def SSL_ERROR_SYSCALL : Int := 5

/-- SSL_ERROR_ZERO_RETURN from the engine headers. -/
def SSL_ERROR_ZERO_RETURN : Int := 6

/-- Sentinel `#define THROW_SSLEXCEPTION (-2)` of NativeCrypto.cpp. -/
def THROW_SSLEXCEPTION : Int := -2

/-- Sentinel `#define THROW_SOCKETTIMEOUTEXCEPTION (-3)` of NativeCrypto.cpp. -/
def THROW_SOCKETTIMEOUTEXCEPTION : Int := -3

/-- Sentinel `#define THROWN_EXCEPTION (-4)` of NativeCrypto.cpp. -/
def THROWN_EXCEPTION : Int := -4

/-- The POSIX EINTR errno value. -/
def EINTR : Int := 4

/-- Observable per-connection shared state of class `AppData`: the
`aliveAndKicking` flag, the `waitingThreads` counter, and the number of
not-yet-drained bytes sitting in the emergency self-pipe `fdsEmergency`. -/
structure AppData where
  aliveAndKicking : Bool
  waitingThreads : Int
  pipeBytes : Nat
deriving DecidableEq

/-- Outcome of one `write(2)` attempt on the self-pipe write end: success
(one byte written, errno left 0) or failure with the given errno. -/
inductive WriteOutcome where
  | ok
  | err (errno : Int)
deriving DecidableEq

/-- Effect of one `write(appData->fdsEmergency[1], &token, 1)` attempt,
returning the new state and the errno the attempt left behind (the loop in
`sslNotify` zeroes errno before each attempt). -/
def writeByte (s : AppData) : WriteOutcome → AppData × Int
  | .ok => ({ s with pipeBytes := s.pipeBytes + 1 }, 0)
  | .err e => (s, e)

/-- OS trace of one `sslNotify` call: the number of leading attempts that
failed with EINTR, then the outcome of the attempt on which the loop stops. -/
structure NotifyTrace where
  eintrs : Nat
  final : WriteOutcome
deriving DecidableEq

/-- The `do { errno = 0; write(...); } while (errno == EINTR)` loop of
`sslNotify`: each EINTR-failing attempt leaves the pipe unchanged and the
loop repeats; the final attempt determines the loop's exit errno. -/
def notifyLoop (s : AppData) : Nat → WriteOutcome → AppData × Int
  | 0, final => writeByte s final
  | n + 1, final => notifyLoop (writeByte s (.err EINTR)).1 n final

/-- `sslNotify`: backs up the caller's errno, writes a single token byte to
the emergency pipe retrying on EINTR, and restores the backed-up errno. -/
def sslNotify (s : AppData) (errno : Int) (t : NotifyTrace) : AppData × Int :=
  let errnoBackup := errno
  let r := notifyLoop s t.eintrs t.final
  (r.1, errnoBackup)

/-- `NativeCrypto_SSL_interrupt` with an attached `AppData`: clears
`aliveAndKicking` and calls `sslNotify` twice ("at most two threads can be
waiting"). The pair carries the state together with the thread's errno. -/
def SSL_interrupt (se : AppData × Int) (t1 t2 : NotifyTrace) : AppData × Int :=
  let s1 : AppData := { se.1 with aliveAndKicking := false }
  let r1 := sslNotify s1 se.2 t1
  sslNotify r1.1 r1.2 t2

/-- A sequence of `NativeCrypto_SSL_interrupt` calls, one pair of notify
traces per call. -/
def interruptCalls (se : AppData × Int) : List (NotifyTrace × NotifyTrace) → AppData × Int
  | [] => se
  | t :: ts => interruptCalls (SSL_interrupt se t.1 t.2) ts

/-- One exiting iteration of the poll loop in `sslSelect`: either
`fd.isClosed()` was observed true at the top of the iteration, or `poll(2)`
returned `result` with the given self-pipe revent, post-poll closed check and
errno. Leading EINTR retries are counted separately in `SelectTrace`. -/
inductive PollIter where
  | closed
  | poll (result : Int) (pipeReadable : Bool) (closedAfter : Bool) (errno : Int)
deriving DecidableEq

/-- OS trace of one `sslSelect` call: the number of leading iterations whose
poll failed with EINTR while the socket was not closed (which the loop
retries), then the first iteration on which the loop exits. -/
structure SelectTrace where
  eintrs : Nat
  final : PollIter
deriving DecidableEq

/-- Whether the final iteration really exits the `do`-`while` loop of
`sslSelect`: a closed socket always does; a poll result of `-1` exits only
when the socket is found closed afterwards or errno is not EINTR. -/
def finalExits : PollIter → Bool
  | .closed => true
  | .poll r _ closedAfter errno =>
      decide (-1 ≤ r) && (decide (r = -1) → (closedAfter || decide (errno ≠ EINTR)))

/-- Value the `result` variable holds when the loop of `sslSelect` exits at
the given iteration. -/
def loopResult : PollIter → Int
  | .closed => THROWN_EXCEPTION
  | .poll r _ closedAfter _ =>
      if r = -1 && closedAfter then THROWN_EXCEPTION else r

/-- Whether the final iteration examined `fds[1].revents` as readable. -/
def pipeReadableOf : PollIter → Bool
  | .closed => false
  | .poll _ pr _ _ => pr

/-- Number of actual `poll(2)` calls the final iteration performs (a
closed-at-top iteration breaks before polling). -/
def finalPolls : PollIter → Nat
  | .closed => 0
  | .poll _ _ _ _ => 1

/-- The Java-to-POSIX timeout conversion done inside the loop of
`sslSelect`: non-positive means wait indefinitely (`-1` for `poll`). -/
def effTimeout (timeout_millis : Int) : Int :=
  if timeout_millis ≤ 0 then -1 else timeout_millis

/-- The `do`-`while` poll loop of `sslSelect`, yielding the exit value of
`result` and the list of timeout arguments passed to the successive `poll`
calls. The `timeout_millis` variable is converted in place at the top of
every iteration and is never decremented for elapsed time. -/
def selectPollLoop (timeout_millis : Int) : Nat → PollIter → Int × List Int
  | 0, final =>
      match final with
      | .closed => (loopResult final, [])
      | .poll _ _ _ _ =>
          let tm := if timeout_millis ≤ 0 then -1 else timeout_millis
          (loopResult final, [tm])
  | n + 1, final =>
      let tm := if timeout_millis ≤ 0 then -1 else timeout_millis
      let r := selectPollLoop tm n final
      (r.1, tm :: r.2)

/-- Result of one `sslSelect` call: the returned int, the state after the
post-loop mutex section, and the timeouts used by the polls it issued. -/
structure SelectResult where
  result : Int
  state : AppData
  pollTimeouts : List Int
deriving DecidableEq

/-- `sslSelect`: runs the poll loop, then under the mutex drains one byte
from the self-pipe when poll reported it readable and a positive result, and
finally decrements `waitingThreads` — on every return path. -/
def sslSelect (timeout_millis : Int) (s : AppData) (t : SelectTrace) : SelectResult :=
  let r := selectPollLoop timeout_millis t.eintrs t.final
  let res := r.1
  let s1 := if 0 < res ∧ pipeReadableOf t.final = true then
              { s with pipeBytes := s.pipeBytes - 1 } else s
  let s2 := { s1 with waitingThreads := s1.waitingThreads - 1 }
  ⟨res, s2, r.2⟩

/-- Environment events of one iteration of an operation driver loop: the
engine's handshake-state predicates at the top, whether `setCallbackState`
found the Java fd closed, the `SSL_read`/`SSL_write` return value, the value
`SSL_get_error` would report for a non-positive return, the errno left by
the call, whether the BIO byte counters moved, the OS trace of the
`sslNotify` the iteration may issue, whether a Java callback threw, the OS
trace of the `sslSelect` the iteration may issue, and whether a concurrent
`NativeCrypto_SSL_interrupt` fires before the next loop-condition check. -/
structure EngineIter where
  initFinished : Bool
  falseStart : Bool
  renegPending : Bool
  cbFdClosed : Bool
  result : Int
  sslErr : Int
  errno : Int
  movedBytes : Bool
  notifyT : NotifyTrace
  exnThrown : Bool
  selectTrace : SelectTrace
  interruptAfter : Bool
deriving DecidableEq

/-- `OpenSslError::reset`: the stored error is `SSL_get_error` for a
non-positive return code and `SSL_ERROR_NONE` otherwise. -/
def sslErrorOf (it : EngineIter) : Int :=
  if it.result ≤ 0 then it.sslErr else SSL_ERROR_NONE

/-- State mutation a driver iteration performs after the engine call while
holding the mutex: `sslNotify` when data moved and threads are waiting, then
the `waitingThreads` increment when the engine wants the socket. -/
def stepState (s : AppData) (it : EngineIter) : AppData :=
  let s1 := if it.movedBytes && decide (0 < s.waitingThreads) then
              (sslNotify s 0 it.notifyT).1 else s
  if sslErrorOf it = SSL_ERROR_WANT_READ ∨ sslErrorOf it = SSL_ERROR_WANT_WRITE then
    { s1 with waitingThreads := s1.waitingThreads + 1 } else s1

/-- Effect of a concurrent `NativeCrypto_SSL_interrupt` (with both notify
writes succeeding) fired between two driver iterations. -/
def postIter (s : AppData) (it : EngineIter) : AppData :=
  if it.interruptAfter then
    { s with aliveAndKicking := false, pipeBytes := s.pipeBytes + 2 } else s

/-- Result of `sslRead`: the returned int (bytes read, `-1`, or a `THROW`
sentinel), the final state, the number of `SSL_read` engine calls and of
`sslSelect` calls issued, and whether the return was the loop exit taken
because `aliveAndKicking` was found false. -/
structure ReadResult where
  ret : Int
  state : AppData
  engineCalls : Nat
  selectCalls : Nat
  dead : Bool
deriving DecidableEq

/-- Adds the call counts of the current iteration to a recursive result. -/
def addCalls (e sel : Nat) (r : ReadResult) : ReadResult :=
  { r with engineCalls := e + r.engineCalls, selectCalls := sel + r.selectCalls }

/-- One iteration of the body of the `sslRead` loop (the loop condition has
already passed): either the iteration returns from the function with a
`ReadResult`, or the loop continues with the state after the iteration and
the iteration's engine/select call counts. -/
def readIterStep (tm : Int) (s : AppData) (it : EngineIter) :
    ReadResult ⊕ (AppData × Nat × Nat) :=
  if !it.initFinished && !it.falseStart && !it.renegPending then
    .inl ⟨THROW_SSLEXCEPTION, s, 0, 0, false⟩
  else if it.cbFdClosed then
    .inl ⟨THROWN_EXCEPTION, s, 0, 0, false⟩
  else if it.exnThrown then
    .inl ⟨THROWN_EXCEPTION, s, 1, 0, false⟩
  else
    let e := sslErrorOf it
    let s2 := stepState s it
    if e = SSL_ERROR_NONE then .inl ⟨it.result, s2, 1, 0, false⟩
    else if e = SSL_ERROR_ZERO_RETURN then .inl ⟨-1, s2, 1, 0, false⟩
    else if e = SSL_ERROR_WANT_READ ∨ e = SSL_ERROR_WANT_WRITE then
      let sel := sslSelect tm s2 it.selectTrace
      if sel.result = THROWN_EXCEPTION then .inl ⟨THROWN_EXCEPTION, sel.state, 1, 1, false⟩
      else if sel.result = -1 then .inl ⟨THROW_SSLEXCEPTION, sel.state, 1, 1, false⟩
      else if sel.result = 0 then
        .inl ⟨THROW_SOCKETTIMEOUTEXCEPTION, sel.state, 1, 1, false⟩
      else .inr (postIter sel.state it, 1, 1)
    else if e = SSL_ERROR_SYSCALL ∧ it.result = 0 then .inl ⟨-1, s2, 1, 0, false⟩
    else if e = SSL_ERROR_SYSCALL ∧ it.errno = EINTR then .inr (postIter s2 it, 1, 0)
    else .inl ⟨THROW_SSLEXCEPTION, s2, 1, 0, false⟩

/-- The `while (appData->aliveAndKicking)` loop of `sslRead`, consuming one
`EngineIter` per iteration; `none` when the trace ends while the loop would
continue. -/
def sslReadLoop (tm : Int) (s : AppData) : List EngineIter → Option ReadResult
  | [] => if s.aliveAndKicking then none else some ⟨-1, s, 0, 0, true⟩
  | it :: rest =>
      if s.aliveAndKicking = false then some ⟨-1, s, 0, 0, true⟩
      else
        match readIterStep tm s it with
        | .inl r => some r
        | .inr (s2, e, sel) => (sslReadLoop tm s2 rest).map (addCalls e sel)

/-- `sslRead`: a zero-length request returns 0 at once, otherwise the driver
loop runs. -/
def sslRead (tm len : Int) (s : AppData) (trace : List EngineIter) : Option ReadResult :=
  if len = 0 then some ⟨0, s, 0, 0, false⟩
  else sslReadLoop tm s trace

/-- Result of `sslWrite`: the returned int, the final state, the call
counts, the dead-exit flag, the total of the positive `SSL_write` results
accepted, and the log of `SSL_write` calls as pairs of (offset of the buffer
pointer from the original start, remaining length passed). -/
structure WriteResult where
  ret : Int
  state : AppData
  engineCalls : Nat
  selectCalls : Nat
  dead : Bool
  sent : Int
  calls : List (Int × Int)
deriving DecidableEq

/-- Adds the call counts, call log entry and accepted byte count of the
current iteration to a recursive result. -/
def addW (e sel : Nat) (c : List (Int × Int)) (snt : Int) (r : WriteResult) : WriteResult :=
  { r with engineCalls := e + r.engineCalls, selectCalls := sel + r.selectCalls,
           calls := c ++ r.calls, sent := snt + r.sent }

/-- Continuation data of a write iteration that does not return: the state
after the iteration, the new remaining length, the iteration's call-log
entries, the bytes the engine accepted, and the engine/select call counts. -/
structure WCont where
  state : AppData
  cur : Int
  call : List (Int × Int)
  sent : Int
  ec : Nat
  sc : Nat

/-- One iteration of the body of the `sslWrite` loop (the loop condition has
already passed): either the iteration returns from the function with a
`WriteResult`, or the loop continues. On `SSL_ERROR_NONE` the buffer pointer
advances past the `result` accepted bytes (`cur` shrinks accordingly). -/
def writeIterStep (tm orig cur : Int) (s : AppData) (it : EngineIter) :
    WriteResult ⊕ WCont :=
  if !it.initFinished && !it.falseStart && !it.renegPending then
    .inl ⟨THROW_SSLEXCEPTION, s, 0, 0, false, 0, []⟩
  else if it.cbFdClosed then
    .inl ⟨THROWN_EXCEPTION, s, 0, 0, false, 0, []⟩
  else if it.exnThrown then
    .inl ⟨THROWN_EXCEPTION, s, 1, 0, false, 0, [(orig - cur, cur)]⟩
  else
    let e := sslErrorOf it
    let s2 := stepState s it
    if e = SSL_ERROR_NONE then
      .inr ⟨postIter s2 it, cur - it.result, [(orig - cur, cur)], it.result, 1, 0⟩
    else if e = SSL_ERROR_ZERO_RETURN then
      .inl ⟨-1, s2, 1, 0, false, 0, [(orig - cur, cur)]⟩
    else if e = SSL_ERROR_WANT_READ ∨ e = SSL_ERROR_WANT_WRITE then
      let sel := sslSelect tm s2 it.selectTrace
      if sel.result = THROWN_EXCEPTION then
        .inl ⟨THROWN_EXCEPTION, sel.state, 1, 1, false, 0, [(orig - cur, cur)]⟩
      else if sel.result = -1 then
        .inl ⟨THROW_SSLEXCEPTION, sel.state, 1, 1, false, 0, [(orig - cur, cur)]⟩
      else if sel.result = 0 then
        .inl ⟨THROW_SOCKETTIMEOUTEXCEPTION, sel.state, 1, 1, false, 0, [(orig - cur, cur)]⟩
      else .inr ⟨postIter sel.state it, cur, [(orig - cur, cur)], 0, 1, 1⟩
    else if e = SSL_ERROR_SYSCALL ∧ it.result = 0 then
      .inl ⟨-1, s2, 1, 0, false, 0, [(orig - cur, cur)]⟩
    else if e = SSL_ERROR_SYSCALL ∧ it.errno = EINTR then
      .inr ⟨postIter s2 it, cur, [(orig - cur, cur)], 0, 1, 0⟩
    else .inl ⟨THROW_SSLEXCEPTION, s2, 1, 0, false, 0, [(orig - cur, cur)]⟩

/-- The `while (appData->aliveAndKicking && len > 0)` loop of `sslWrite`;
`orig` is the saved `count`, `cur` the mutable `len`, and the buffer pointer
sits at offset `orig - cur`. -/
def sslWriteLoop (tm orig : Int) (cur : Int) (s : AppData) :
    List EngineIter → Option WriteResult
  | [] =>
      if s.aliveAndKicking = false then some ⟨orig, s, 0, 0, true, 0, []⟩
      else if cur ≤ 0 then some ⟨orig, s, 0, 0, false, 0, []⟩
      else none
  | it :: rest =>
      if s.aliveAndKicking = false then some ⟨orig, s, 0, 0, true, 0, []⟩
      else if cur ≤ 0 then some ⟨orig, s, 0, 0, false, 0, []⟩
      else
        match writeIterStep tm orig cur s it with
        | .inl r => some r
        | .inr c => (sslWriteLoop tm orig c.cur c.state rest).map
            (addW c.ec c.sc c.call c.sent)

/-- `sslWrite`: a zero-length request returns 0 at once, otherwise the
driver loop runs with `count = len` saved for the final return. -/
def sslWrite (tm len : Int) (s : AppData) (trace : List EngineIter) : Option WriteResult :=
  if len = 0 then some ⟨0, s, 0, 0, false, 0, []⟩
  else sslWriteLoop tm len len s trace

/-- What the JNI entry point surfaces to the managed caller. -/
inductive JavaThrow where
  | noThrow
  | sslException
  | socketTimeout
  | already
deriving DecidableEq

/-- The switch on the `sslRead` return in `NativeCrypto_SSL_read`: the
`THROW` sentinels become exceptions with result `-1`; every other value,
including the `-1` end-of-stream sentinel, is returned as is. -/
def readRetMap (ret : Int) : Int × JavaThrow :=
  if ret = THROW_SSLEXCEPTION then (-1, .sslException)
  else if ret = THROW_SOCKETTIMEOUTEXCEPTION then (-1, .socketTimeout)
  else if ret = THROWN_EXCEPTION then (-1, .already)
  else (ret, .noThrow)

/-- The switch on the `sslWrite` return in `NativeCrypto_SSL_write`: the
`THROW` sentinels become exceptions; every other value, including `-1`,
falls into the default case and nothing is surfaced. -/
def writeRetMap (ret : Int) : JavaThrow :=
  if ret = THROW_SSLEXCEPTION then .sslException
  else if ret = THROW_SOCKETTIMEOUTEXCEPTION then .socketTimeout
  else if ret = THROWN_EXCEPTION then .already
  else .noThrow

/-- An iteration on which the driver switch falls to the default case and
throws: the stored error is none of NONE, ZERO_RETURN, WANT_READ,
WANT_WRITE, and not a SYSCALL with a zero result or an EINTR errno. -/
def fatalIter (it : EngineIter) : Bool :=
  let e := sslErrorOf it
  !decide (e = SSL_ERROR_NONE) && !decide (e = SSL_ERROR_ZERO_RETURN) &&
  !decide (e = SSL_ERROR_WANT_READ) && !decide (e = SSL_ERROR_WANT_WRITE) &&
  !(decide (e = SSL_ERROR_SYSCALL) && (decide (it.result = 0) || decide (it.errno = EINTR)))

/-- An iteration that reaches the engine call unhindered (handshake state
fine, callback fd open, no Java exception) and is not concurrently
interrupted. -/
def goodIter (it : EngineIter) : Bool :=
  (it.initFinished || it.falseStart || it.renegPending) && !it.cbFdClosed &&
  !it.exnThrown && !it.interruptAfter

/-- A trace on which the write loop, starting with `remaining` bytes to
send, sees only successful partial writes of positive size at most the
remainder, until nothing remains. -/
def chunksGood : Int → List EngineIter → Bool
  | r, [] => decide (r ≤ 0)
  | r, it :: rest =>
      if r ≤ 0 then true
      else goodIter it && decide (1 ≤ it.result) && decide (it.result ≤ r) &&
           chunksGood (r - it.result) rest

/-! Helper lemmas. -/

/-- The notify write loop never touches the liveness flag or the waiter
count, and adds one pipe byte exactly when the final write succeeds. -/
theorem notifyLoop_state (s : AppData) (n : Nat) (f : WriteOutcome) :
    (notifyLoop s n f).1.aliveAndKicking = s.aliveAndKicking
    ∧ (notifyLoop s n f).1.waitingThreads = s.waitingThreads
    ∧ (notifyLoop s n f).1.pipeBytes
        = s.pipeBytes + (match f with | .ok => 1 | .err _ => 0) := by
  induction n generalizing s with
  | zero => cases f <;> simp [notifyLoop, writeByte]
  | succ n ih => simpa [notifyLoop, writeByte] using ih s

/-- One interrupt call clears the liveness flag and preserves the waiter
count and the caller's errno. -/
theorem SSL_interrupt_state (se : AppData × Int) (t1 t2 : NotifyTrace) :
    (SSL_interrupt se t1 t2).1.aliveAndKicking = false
    ∧ (SSL_interrupt se t1 t2).1.waitingThreads = se.1.waitingThreads
    ∧ (SSL_interrupt se t1 t2).2 = se.2 := by
  have h1 := notifyLoop_state { se.1 with aliveAndKicking := false } t1.eintrs t1.final
  have h2 := notifyLoop_state
      (notifyLoop { se.1 with aliveAndKicking := false } t1.eintrs t1.final).1
      t2.eintrs t2.final
  simp only [SSL_interrupt, sslNotify]
  exact ⟨by rw [h2.1, h1.1], by rw [h2.2.1, h1.2.1], trivial⟩

/-- Interrupt call sequences preserve the waiter count and errno, and keep
the liveness flag false once it is false. -/
theorem interruptCalls_invariant (ts : List (NotifyTrace × NotifyTrace)) :
    ∀ se : AppData × Int,
    (interruptCalls se ts).1.waitingThreads = se.1.waitingThreads
    ∧ (interruptCalls se ts).2 = se.2
    ∧ (se.1.aliveAndKicking = false → (interruptCalls se ts).1.aliveAndKicking = false) := by
  induction ts with
  | nil => exact fun se => ⟨rfl, rfl, fun h => h⟩
  | cons t ts ih =>
    intro se
    have hs := SSL_interrupt_state se t.1 t.2
    have hrec := ih (SSL_interrupt se t.1 t.2)
    refine ⟨?_, ?_, fun _ => ?_⟩
    · show (interruptCalls (SSL_interrupt se t.1 t.2) ts).1.waitingThreads = _
      rw [hrec.1, hs.2.1]
    · show (interruptCalls (SSL_interrupt se t.1 t.2) ts).2 = _
      rw [hrec.2.1, hs.2.2]
    · show (interruptCalls (SSL_interrupt se t.1 t.2) ts).1.aliveAndKicking = false
      exact hrec.2.2 hs.1

/-- The in-place timeout conversion is idempotent across retries. -/
theorem effTimeout_idem (tm : Int) : effTimeout (effTimeout tm) = effTimeout tm := by
  unfold effTimeout
  split <;> simp

/-- Every poll issued by the select loop uses the converted timeout of the
original argument, unadjusted across EINTR retries. -/
theorem selectPollLoop_timeouts (n : Nat) :
    ∀ (tm : Int) (f : PollIter), ∀ x ∈ (selectPollLoop tm n f).2, x = effTimeout tm := by
  induction n with
  | zero =>
    intro tm f x hx
    cases f with
    | closed => simp [selectPollLoop] at hx
    | poll r pr ca e =>
      simp [selectPollLoop] at hx
      simpa [effTimeout] using hx
  | succ n ih =>
    intro tm f x hx
    simp only [selectPollLoop, List.mem_cons] at hx
    rcases hx with h | h
    · simpa [effTimeout] using h
    · have := ih (effTimeout tm) f x (by simpa [effTimeout] using h)
      rwa [effTimeout_idem] at this

/-! Claim theorems. -/

/-- C9: every `sslSelect` call decrements `waitingThreads` exactly once, on
every return path (any trace of poll outcomes), so a caller's pre-wait
increment is matched by exactly one decrement and the counter returns to its
prior value after the wait completes. -/
theorem select_decrements_waiting (tm : Int) (s : AppData) (t : SelectTrace) :
    (sslSelect tm s t).state.waitingThreads = s.waitingThreads - 1
    ∧ (sslSelect tm { s with waitingThreads := s.waitingThreads + 1 } t).state.waitingThreads
        = s.waitingThreads := by
  constructor <;> simp only [sslSelect] <;> split <;> simp

/-- C6: a non-positive timeout argument is converted to the poll infinite
sentinel `-1`, and every poll the wait issues — the EINTR retries included —
uses that same converted, unadjusted timeout value. -/
theorem select_timeout_uniform (tm : Int) (s : AppData) (t : SelectTrace) :
    (∀ x ∈ (sslSelect tm s t).pollTimeouts, x = effTimeout tm)
    ∧ effTimeout tm = if tm ≤ 0 then -1 else tm := by
  refine ⟨?_, rfl⟩
  intro x hx
  exact selectPollLoop_timeouts t.eintrs tm t.final x hx

/-- Witness for C6 at timeout `-5` with two EINTR retries. -/
theorem select_timeout_uniform_witness :
    (-1 : Int) = effTimeout (-5)
    ∧ effTimeout (-5) = if (-5 : Int) ≤ 0 then -1 else -5 :=
  ⟨(select_timeout_uniform (-5) ⟨true, 0, 0⟩ ⟨2, .poll 1 true false 0⟩).1 (-1) (by decide),
   (select_timeout_uniform (-5) ⟨true, 0, 0⟩ ⟨2, .poll 1 true false 0⟩).2⟩

/-- C8: `sslNotify` writes a single byte to the pipe (when the final write
attempt succeeds), retries only on EINTR, ignores other write errors, and
restores the caller's errno: for every initial errno the errno after the
call equals the errno before; liveness flag and waiter count are untouched. -/
theorem notify_preserves_errno (s : AppData) (errno : Int) (t : NotifyTrace)
    (_h : t.final ≠ WriteOutcome.err EINTR) :
    (sslNotify s errno t).2 = errno
    ∧ (sslNotify s errno t).1.aliveAndKicking = s.aliveAndKicking
    ∧ (sslNotify s errno t).1.waitingThreads = s.waitingThreads
    ∧ (sslNotify s errno t).1.pipeBytes
        = s.pipeBytes + (match t.final with | .ok => 1 | .err _ => 0) := by
  have h := notifyLoop_state s t.eintrs t.final
  exact ⟨rfl, h.1, h.2.1, h.2.2⟩

/-- Witness for C8: errno 9 is preserved across a notify with two EINTR
retries and a final successful write. -/
theorem notify_preserves_errno_witness :
    (sslNotify ⟨true, 1, 0⟩ 9 ⟨2, WriteOutcome.ok⟩).2 = 9
    ∧ (sslNotify ⟨true, 1, 0⟩ 9 ⟨2, WriteOutcome.ok⟩).1.aliveAndKicking = true
    ∧ (sslNotify ⟨true, 1, 0⟩ 9 ⟨2, WriteOutcome.ok⟩).1.waitingThreads = 1
    ∧ (sslNotify ⟨true, 1, 0⟩ 9 ⟨2, WriteOutcome.ok⟩).1.pipeBytes = 0 + 1 :=
  notify_preserves_errno ⟨true, 1, 0⟩ 9 ⟨2, .ok⟩ (by decide)

/-- C7: a zero-length read or write returns 0 immediately: no engine step,
no readiness wait, and the connection state is returned untouched. -/
theorem zero_length_noop (tm : Int) (s : AppData) (tr : List EngineIter) :
    sslRead tm 0 s tr = some ⟨0, s, 0, 0, false⟩
    ∧ sslWrite tm 0 s tr = some ⟨0, s, 0, 0, false, 0, []⟩ := by
  constructor <;> simp [sslRead, sslWrite]

/-- C3 counterexample: the observable state after two interrupt calls (with
all pipe writes succeeding) differs from the state after one call — each
call appends two further wake bytes to the self-pipe. -/
theorem interrupt_not_state_idempotent :
    interruptCalls (⟨true, 0, 0⟩, 0) [(⟨0, .ok⟩, ⟨0, .ok⟩), (⟨0, .ok⟩, ⟨0, .ok⟩)]
      ≠ interruptCalls (⟨true, 0, 0⟩, 0) [(⟨0, .ok⟩, ⟨0, .ok⟩)] := by decide

/-- C3 amended: every interrupt call clears the alive flag and wakes twice;
after any n ≥ 1 calls the alive flag is false and the waiter count and the
caller's errno equal their initial values (as after a single call), and a
single call with both pipe writes succeeding appends exactly two wake bytes;
full state equality between n calls and one call fails on the pipe content. -/
theorem interrupt_idempotent_amended (s : AppData) (e : Int)
    (ts : List (NotifyTrace × NotifyTrace)) (h : ts ≠ []) :
    (interruptCalls (s, e) ts).1.aliveAndKicking = false
    ∧ (interruptCalls (s, e) ts).1.waitingThreads = s.waitingThreads
    ∧ (interruptCalls (s, e) ts).2 = e
    ∧ (SSL_interrupt (s, e) ⟨0, .ok⟩ ⟨0, .ok⟩).1.pipeBytes = s.pipeBytes + 2 := by
  obtain ⟨t, ts', rfl⟩ := List.exists_cons_of_ne_nil h
  have hs := SSL_interrupt_state (s, e) t.1 t.2
  have hrec := interruptCalls_invariant ts' (SSL_interrupt (s, e) t.1 t.2)
  refine ⟨?_, ?_, ?_, rfl⟩
  · show (interruptCalls (SSL_interrupt (s, e) t.1 t.2) ts').1.aliveAndKicking = false
    exact hrec.2.2 hs.1
  · show (interruptCalls (SSL_interrupt (s, e) t.1 t.2) ts').1.waitingThreads = _
    rw [hrec.1, hs.2.1]
  · show (interruptCalls (SSL_interrupt (s, e) t.1 t.2) ts').2 = _
    rw [hrec.2.1, hs.2.2]

/-- Witness for the amended C3 at a three-call sequence. -/
theorem interrupt_idempotent_amended_witness :
    (interruptCalls (⟨true, 2, 0⟩, 11)
        [(⟨1, .ok⟩, ⟨0, .ok⟩), (⟨0, .err 5⟩, ⟨0, .ok⟩), (⟨0, .ok⟩, ⟨0, .ok⟩)]).1.aliveAndKicking
      = false
    ∧ (interruptCalls (⟨true, 2, 0⟩, 11)
        [(⟨1, .ok⟩, ⟨0, .ok⟩), (⟨0, .err 5⟩, ⟨0, .ok⟩), (⟨0, .ok⟩, ⟨0, .ok⟩)]).1.waitingThreads
      = 2
    ∧ (interruptCalls (⟨true, 2, 0⟩, 11)
        [(⟨1, .ok⟩, ⟨0, .ok⟩), (⟨0, .err 5⟩, ⟨0, .ok⟩), (⟨0, .ok⟩, ⟨0, .ok⟩)]).2 = 11
    ∧ (SSL_interrupt (⟨true, 2, 0⟩, 11) ⟨0, .ok⟩ ⟨0, .ok⟩).1.pipeBytes = 0 + 2 :=
  interrupt_idempotent_amended ⟨true, 2, 0⟩ 11
    [(⟨1, .ok⟩, ⟨0, .ok⟩), (⟨0, .err 5⟩, ⟨0, .ok⟩), (⟨0, .ok⟩, ⟨0, .ok⟩)] (by decide)

/-- A read iteration that returns does not carry the dead-exit flag; that
flag marks only the loop-condition exit. -/
theorem readIterStep_not_dead (tm : Int) (s : AppData) (it : EngineIter) (r : ReadResult)
    (h : readIterStep tm s it = .inl r) : r.dead = false := by
  simp only [readIterStep] at h
  repeat' split at h
  all_goals first
    | (cases Sum.inl.inj h; rfl)
    | exact absurd h (by simp)

/-- A write iteration that returns does not carry the dead-exit flag. -/
theorem writeIterStep_not_dead (tm orig cur : Int) (s : AppData) (it : EngineIter)
    (r : WriteResult) (h : writeIterStep tm orig cur s it = .inl r) : r.dead = false := by
  simp only [writeIterStep] at h
  repeat' split at h
  all_goals first
    | (cases Sum.inl.inj h; rfl)
    | exact absurd h (by simp)

/-- A read whose loop exits on the dead flag returns the `-1` sentinel. -/
theorem sslReadLoop_dead_ret (tm : Int) :
    ∀ (tr : List EngineIter) (s : AppData) (out : ReadResult),
    sslReadLoop tm s tr = some out → out.dead = true → out.ret = -1 := by
  intro tr
  induction tr with
  | nil =>
    intro s out h hd
    simp only [sslReadLoop] at h
    split at h
    · exact absurd h (by simp)
    · cases Option.some.inj h
      rfl
  | cons it rest ih =>
    intro s out h hd
    simp only [sslReadLoop] at h
    split at h
    · cases Option.some.inj h
      rfl
    · cases hstep : readIterStep tm s it with
      | inl r =>
        simp only [hstep] at h
        have hnd := readIterStep_not_dead tm s it r hstep
        cases Option.some.inj h
        rw [hnd] at hd
        cases hd
      | inr cont =>
        obtain ⟨s2, e, sel⟩ := cont
        simp only [hstep] at h
        obtain ⟨out', h', rfl⟩ := Option.map_eq_some'.mp h
        exact ih _ out' h' hd

/-- A write whose loop exits on the dead flag returns the saved `count`. -/
theorem sslWriteLoop_dead_ret (tm orig : Int) :
    ∀ (tr : List EngineIter) (cur : Int) (s : AppData) (out : WriteResult),
    sslWriteLoop tm orig cur s tr = some out → out.dead = true → out.ret = orig := by
  intro tr
  induction tr with
  | nil =>
    intro cur s out h hd
    simp only [sslWriteLoop] at h
    split at h
    · cases Option.some.inj h
      rfl
    · split at h
      · cases Option.some.inj h
        simp at hd
      · exact absurd h (by simp)
  | cons it rest ih =>
    intro cur s out h hd
    simp only [sslWriteLoop] at h
    split at h
    · cases Option.some.inj h
      rfl
    · split at h
      · cases Option.some.inj h
        simp at hd
      · cases hstep : writeIterStep tm orig cur s it with
        | inl r =>
          simp only [hstep] at h
          have hnd := writeIterStep_not_dead tm orig cur s it r hstep
          cases Option.some.inj h
          rw [hnd] at hd
          cases hd
        | inr c =>
          simp only [hstep] at h
          obtain ⟨out', h', rfl⟩ := Option.map_eq_some'.mp h
          exact ih _ _ out' h' hd

/-- C1 counterexample: a read or write of five bytes issued after
`NativeCrypto_SSL_interrupt` has cleared the alive flag does not fail: the
read returns the `-1` end-of-stream sentinel, surfaced by the JNI entry as a
plain `-1` with no exception, and the write returns the full requested
length with no exception — exactly a success report. -/
theorem interrupted_ops_cex :
    sslRead (-1) 5 ⟨false, 0, 0⟩ [] = some ⟨-1, ⟨false, 0, 0⟩, 0, 0, true⟩
    ∧ readRetMap (-1) = (-1, JavaThrow.noThrow)
    ∧ sslWrite (-1) 5 ⟨false, 0, 0⟩ [] = some ⟨5, ⟨false, 0, 0⟩, 0, 0, true, 0, []⟩
    ∧ writeRetMap 5 = JavaThrow.noThrow := by decide

/-- C1 amended: when the driver retry loop of a read or write of positive
length exits because the alive flag became false, the operation does not
fail as Interrupted: the read returns the `-1` end-of-stream sentinel
(surfaced with no exception, indistinguishable from clean end-of-stream)
and the write returns the original requested length as if it had fully
succeeded, with no exception surfaced. -/
theorem interrupted_ops_amended (tm len : Int) (s : AppData) (tr : List EngineIter)
    (out : ReadResult) (wout : WriteResult) (hpos : 0 < len) :
    (sslRead tm len s tr = some out → out.dead = true →
        out.ret = -1 ∧ readRetMap out.ret = (-1, JavaThrow.noThrow))
    ∧ (sslWrite tm len s tr = some wout → wout.dead = true →
        wout.ret = len ∧ writeRetMap wout.ret = JavaThrow.noThrow) := by
  constructor
  · intro h hd
    rw [sslRead, if_neg (by omega)] at h
    have hret := sslReadLoop_dead_ret tm tr s out h hd
    refine ⟨hret, ?_⟩
    rw [hret]
    simp [readRetMap, THROW_SSLEXCEPTION, THROW_SOCKETTIMEOUTEXCEPTION, THROWN_EXCEPTION]
  · intro h hd
    rw [sslWrite, if_neg (by omega)] at h
    have hret := sslWriteLoop_dead_ret tm len tr len s wout h hd
    refine ⟨hret, ?_⟩
    rw [hret]
    rw [writeRetMap, if_neg (by simp [THROW_SSLEXCEPTION]; omega),
        if_neg (by simp [THROW_SOCKETTIMEOUTEXCEPTION]; omega),
        if_neg (by simp [THROWN_EXCEPTION]; omega)]

/-- Witness for the amended C1 at the interrupted five-byte read and write. -/
theorem interrupted_ops_amended_witness :
    ((⟨-1, ⟨false, 0, 0⟩, 0, 0, true⟩ : ReadResult).ret = -1
      ∧ readRetMap (⟨-1, ⟨false, 0, 0⟩, 0, 0, true⟩ : ReadResult).ret
          = (-1, JavaThrow.noThrow))
    ∧ ((⟨5, ⟨false, 0, 0⟩, 0, 0, true, 0, []⟩ : WriteResult).ret = 5
      ∧ writeRetMap (⟨5, ⟨false, 0, 0⟩, 0, 0, true, 0, []⟩ : WriteResult).ret
          = JavaThrow.noThrow) :=
  ⟨(interrupted_ops_amended (-1) 5 ⟨false, 0, 0⟩ []
      ⟨-1, ⟨false, 0, 0⟩, 0, 0, true⟩ ⟨5, ⟨false, 0, 0⟩, 0, 0, true, 0, []⟩
      (by decide)).1 (by decide) rfl,
   (interrupted_ops_amended (-1) 5 ⟨false, 0, 0⟩ []
      ⟨-1, ⟨false, 0, 0⟩, 0, 0, true⟩ ⟨5, ⟨false, 0, 0⟩, 0, 0, true, 0, []⟩
      (by decide)).2 (by decide) rfl⟩

/-- C2 counterexample: a write of five bytes whose first engine step reports
clean end-of-stream (`SSL_ERROR_ZERO_RETURN`) makes `sslWrite` return `-1`,
but the JNI entry surfaces nothing: `-1` is not one of the `THROW` sentinels
its switch handles, so the caller sees no connection-closed error. -/
theorem write_eof_silent_cex :
    (sslWrite (-1) 5 ⟨true, 0, 0⟩
        [⟨true, false, false, false, 0, 6, 0, false, ⟨0, .ok⟩, false, ⟨0, .closed⟩, false⟩]).map
      WriteResult.ret = some (-1)
    ∧ writeRetMap (-1) = JavaThrow.noThrow := by decide

/-- C2 amended: on clean end-of-stream the write driver does abandon the
write and return the `-1` marker instead of the byte count — unlike read
success — but no connection-closed failure is surfaced to the caller: the
JNI write entry point maps `-1` to its default case and throws nothing,
while for read the same `-1` is returned as the end-of-stream sentinel
value, also without an error. -/
theorem write_eof_amended (tm len : Int) (s : AppData) (it : EngineIter)
    (rest : List EngineIter) (halive : s.aliveAndKicking = true) (hlen : 0 < len)
    (hgate : (it.initFinished || it.falseStart || it.renegPending) = true)
    (hcb : it.cbFdClosed = false) (hexn : it.exnThrown = false)
    (hzr : sslErrorOf it = SSL_ERROR_ZERO_RETURN) :
    (sslWrite tm len s (it :: rest)).map WriteResult.ret = some (-1)
    ∧ writeRetMap (-1) = JavaThrow.noThrow
    ∧ (sslRead tm len s (it :: rest)).map ReadResult.ret = some (-1)
    ∧ readRetMap (-1) = (-1, JavaThrow.noThrow) := by
  have hg2 : (!it.initFinished && !it.falseStart && !it.renegPending) = false := by
    simp only [Bool.or_eq_true] at hgate
    rcases hgate with (h | h) | h <;> simp [h]
  have hlen2 : ¬ len ≤ 0 := by omega
  have hlen0 : ¬ len = 0 := by omega
  refine ⟨?_, by decide, ?_, by decide⟩
  · rw [sslWrite, if_neg hlen0]
    simp [sslWriteLoop, writeIterStep, halive, hlen2, hg2, hcb, hexn, hzr,
          SSL_ERROR_NONE, SSL_ERROR_ZERO_RETURN]
  · rw [sslRead, if_neg hlen0]
    simp [sslReadLoop, readIterStep, halive, hg2, hcb, hexn, hzr,
          SSL_ERROR_NONE, SSL_ERROR_ZERO_RETURN]

/-- Witness for the amended C2 at the concrete end-of-stream iteration. -/
theorem write_eof_amended_witness :
    (sslWrite (-1) 5 ⟨true, 0, 0⟩
        [⟨true, false, false, false, 0, 6, 0, false, ⟨0, .ok⟩, false, ⟨0, .closed⟩, false⟩]).map
      WriteResult.ret = some (-1)
    ∧ writeRetMap (-1) = JavaThrow.noThrow
    ∧ (sslRead (-1) 5 ⟨true, 0, 0⟩
        [⟨true, false, false, false, 0, 6, 0, false, ⟨0, .ok⟩, false, ⟨0, .closed⟩, false⟩]).map
      ReadResult.ret = some (-1)
    ∧ readRetMap (-1) = (-1, JavaThrow.noThrow) :=
  write_eof_amended (-1) 5 ⟨true, 0, 0⟩
    ⟨true, false, false, false, 0, 6, 0, false, ⟨0, .ok⟩, false, ⟨0, .closed⟩, false⟩ []
    rfl (by decide) (by decide) rfl rfl (by decide)

/-- C5: for a read iteration that reaches the engine, clean end-of-stream
(zero-return, or a syscall report with a zero result) makes the read return
the `-1` EOF sentinel, surfaced with no exception; a fatal engine report
makes it return the `THROW_SSLEXCEPTION` marker, surfaced as an SSL
exception — and the two classifications are disjoint. -/
theorem read_eof_vs_error (tm len : Int) (s : AppData) (it : EngineIter)
    (rest : List EngineIter) (halive : s.aliveAndKicking = true) (hlen : ¬ len = 0)
    (hgate : (it.initFinished || it.falseStart || it.renegPending) = true)
    (hcb : it.cbFdClosed = false) (hexn : it.exnThrown = false) :
    ((sslErrorOf it = SSL_ERROR_ZERO_RETURN
        ∨ (sslErrorOf it = SSL_ERROR_SYSCALL ∧ it.result = 0)) →
      (sslRead tm len s (it :: rest)).map ReadResult.ret = some (-1)
      ∧ readRetMap (-1) = (-1, JavaThrow.noThrow))
    ∧ (fatalIter it = true →
      (sslRead tm len s (it :: rest)).map ReadResult.ret = some THROW_SSLEXCEPTION
      ∧ readRetMap THROW_SSLEXCEPTION = (-1, JavaThrow.sslException)
      ∧ THROW_SSLEXCEPTION ≠ (-1 : Int)) := by
  have hg2 : (!it.initFinished && !it.falseStart && !it.renegPending) = false := by
    simp only [Bool.or_eq_true] at hgate
    rcases hgate with (h | h) | h <;> simp [h]
  constructor
  · intro hc
    refine ⟨?_, by decide⟩
    rw [sslRead, if_neg hlen]
    rcases hc with hzr | ⟨hsc, hr0⟩
    · simp [sslReadLoop, readIterStep, halive, hg2, hcb, hexn, hzr,
            SSL_ERROR_NONE, SSL_ERROR_ZERO_RETURN]
    · simp [sslReadLoop, readIterStep, halive, hg2, hcb, hexn, hsc, hr0,
            SSL_ERROR_NONE, SSL_ERROR_ZERO_RETURN, SSL_ERROR_WANT_READ,
            SSL_ERROR_WANT_WRITE, SSL_ERROR_SYSCALL]
  · intro hf
    simp only [fatalIter, Bool.and_eq_true, Bool.not_eq_true', decide_eq_false_iff_not,
               Bool.and_eq_false_iff, Bool.or_eq_false_iff, decide_eq_true_eq] at hf
    obtain ⟨⟨⟨⟨h0, h6⟩, h2⟩, h3⟩, h5⟩ := hf
    have hwant : ¬ (sslErrorOf it = SSL_ERROR_WANT_READ ∨ sslErrorOf it = SSL_ERROR_WANT_WRITE) := by
      tauto
    have hsys1 : ¬ (sslErrorOf it = SSL_ERROR_SYSCALL ∧ it.result = 0) := by
      rcases h5 with h | h
      · exact fun hh => h hh.1
      · rcases h with ⟨ha, hb⟩
        exact fun hh => ha hh.2
    have hsys2 : ¬ (sslErrorOf it = SSL_ERROR_SYSCALL ∧ it.errno = EINTR) := by
      rcases h5 with h | h
      · exact fun hh => h hh.1
      · rcases h with ⟨ha, hb⟩
        exact fun hh => hb hh.2
    refine ⟨?_, by decide, by decide⟩
    rw [sslRead, if_neg hlen]
    simp [sslReadLoop, readIterStep, halive, hg2, hcb, hexn, h0, h6, hwant, hsys1, hsys2]

/-- Witness for C5 at a concrete end-of-stream read and a concrete fatal
read (engine error `SSL_ERROR_SSL = 1`). -/
theorem read_eof_vs_error_witness :
    ((sslRead (-1) 5 ⟨true, 0, 0⟩
        [⟨true, false, false, false, 0, 6, 0, false, ⟨0, .ok⟩, false, ⟨0, .closed⟩, false⟩]).map
      ReadResult.ret = some (-1)
      ∧ readRetMap (-1) = (-1, JavaThrow.noThrow))
    ∧ ((sslRead (-1) 5 ⟨true, 0, 0⟩
        [⟨true, false, false, false, -1, 1, 7, false, ⟨0, .ok⟩, false, ⟨0, .closed⟩, false⟩]).map
      ReadResult.ret = some THROW_SSLEXCEPTION
      ∧ readRetMap THROW_SSLEXCEPTION = (-1, JavaThrow.sslException)
      ∧ THROW_SSLEXCEPTION ≠ (-1 : Int)) :=
  ⟨(read_eof_vs_error (-1) 5 ⟨true, 0, 0⟩
      ⟨true, false, false, false, 0, 6, 0, false, ⟨0, .ok⟩, false, ⟨0, .closed⟩, false⟩ []
      rfl (by decide) (by decide) rfl rfl).1 (Or.inl (by decide)),
   (read_eof_vs_error (-1) 5 ⟨true, 0, 0⟩
      ⟨true, false, false, false, -1, 1, 7, false, ⟨0, .ok⟩, false, ⟨0, .closed⟩, false⟩ []
      rfl (by decide) (by decide) rfl rfl).2 (by decide)⟩

/-- C10: a read or write of positive length issued on a live connection
while the handshake is not finished, no false start is in progress and no
renegotiation is pending returns the `THROW_SSLEXCEPTION` marker at once —
zero engine calls, zero readiness waits, state untouched — surfaced to the
caller as an SSL (protocol) exception. -/
theorem preHandshake_rejected (tm len : Int) (s : AppData) (it : EngineIter)
    (rest : List EngineIter) (halive : s.aliveAndKicking = true) (hlen : 0 < len)
    (hinit : it.initFinished = false) (hfs : it.falseStart = false)
    (hrp : it.renegPending = false) :
    sslRead tm len s (it :: rest) = some ⟨THROW_SSLEXCEPTION, s, 0, 0, false⟩
    ∧ sslWrite tm len s (it :: rest) = some ⟨THROW_SSLEXCEPTION, s, 0, 0, false, 0, []⟩
    ∧ readRetMap THROW_SSLEXCEPTION = (-1, JavaThrow.sslException)
    ∧ writeRetMap THROW_SSLEXCEPTION = JavaThrow.sslException := by
  have hg : (!it.initFinished && !it.falseStart && !it.renegPending) = true := by
    simp [hinit, hfs, hrp]
  have hlen2 : ¬ len ≤ 0 := by omega
  have hlen0 : ¬ len = 0 := by omega
  refine ⟨?_, ?_, by decide, by decide⟩
  · rw [sslRead, if_neg hlen0]
    simp [sslReadLoop, readIterStep, halive, hg]
  · rw [sslWrite, if_neg hlen0]
    simp [sslWriteLoop, writeIterStep, halive, hg, hlen2]

/-- Witness for C10 at a concrete pre-handshake read and write. -/
theorem preHandshake_rejected_witness :
    sslRead (-1) 5 ⟨true, 0, 0⟩
        [⟨false, false, false, false, 0, 0, 0, false, ⟨0, .ok⟩, false, ⟨0, .closed⟩, false⟩]
      = some ⟨THROW_SSLEXCEPTION, ⟨true, 0, 0⟩, 0, 0, false⟩
    ∧ sslWrite (-1) 5 ⟨true, 0, 0⟩
        [⟨false, false, false, false, 0, 0, 0, false, ⟨0, .ok⟩, false, ⟨0, .closed⟩, false⟩]
      = some ⟨THROW_SSLEXCEPTION, ⟨true, 0, 0⟩, 0, 0, false, 0, []⟩
    ∧ readRetMap THROW_SSLEXCEPTION = (-1, JavaThrow.sslException)
    ∧ writeRetMap THROW_SSLEXCEPTION = JavaThrow.sslException :=
  preHandshake_rejected (-1) 5 ⟨true, 0, 0⟩
    ⟨false, false, false, false, 0, 0, 0, false, ⟨0, .ok⟩, false, ⟨0, .closed⟩, false⟩ []
    rfl (by decide) rfl rfl rfl

/-- The mutex-section state mutation of a driver iteration preserves the
liveness flag. -/
theorem stepState_alive (s : AppData) (it : EngineIter) :
    (stepState s it).aliveAndKicking = s.aliveAndKicking := by
  have h := notifyLoop_state s it.notifyT.eintrs it.notifyT.final
  simp only [stepState, sslNotify]
  split <;> split <;> simp_all

/-- A write loop entered with nothing left to send returns the saved count
at once, touching nothing. -/
theorem sslWriteLoop_done (tm orig cur : Int) (s : AppData) (tr : List EngineIter)
    (halive : s.aliveAndKicking = true) (hcur : cur ≤ 0) :
    sslWriteLoop tm orig cur s tr = some ⟨orig, s, 0, 0, false, 0, []⟩ := by
  cases tr <;> simp [sslWriteLoop, halive, hcur]

/-- On a trace of successful partial writes covering the whole remainder,
the write loop reports the saved count, the accepted bytes sum to the
remainder, and every engine call is issued with exactly the remaining
suffix of the original buffer. -/
theorem sslWriteLoop_chunks (tm orig : Int) :
    ∀ (tr : List EngineIter) (cur : Int) (s : AppData),
    s.aliveAndKicking = true → 0 < cur → chunksGood cur tr = true →
    ∃ out, sslWriteLoop tm orig cur s tr = some out
      ∧ out.ret = orig ∧ out.sent = cur ∧ out.dead = false
      ∧ ∀ c ∈ out.calls, c.1 + c.2 = orig ∧ 0 < c.2 := by
  intro tr
  induction tr with
  | nil =>
    intro cur s halive hcur hg
    rw [chunksGood] at hg
    simp at hg
    omega
  | cons it rest ih =>
    intro cur s halive hcur hg
    rw [chunksGood, if_neg (by omega)] at hg
    simp only [Bool.and_eq_true, decide_eq_true_eq] at hg
    obtain ⟨⟨⟨hgood, hr1⟩, hr2⟩, hrest⟩ := hg
    simp only [goodIter, Bool.and_eq_true, Bool.not_eq_true'] at hgood
    obtain ⟨⟨⟨hgate, hcb⟩, hexn⟩, hint⟩ := hgood
    have hg2 : (!it.initFinished && !it.falseStart && !it.renegPending) = false := by
      simp only [Bool.or_eq_true] at hgate
      rcases hgate with (h | h) | h <;> simp [h]
    have henone : sslErrorOf it = SSL_ERROR_NONE := by
      rw [sslErrorOf, if_neg (by omega)]
    have hstep : writeIterStep tm orig cur s it
        = .inr ⟨stepState s it, cur - it.result, [(orig - cur, cur)], it.result, 1, 0⟩ := by
      simp [writeIterStep, hg2, hcb, hexn, henone, postIter, hint]
    have hcur2 : ¬ cur ≤ 0 := by omega
    have hloop : sslWriteLoop tm orig cur s (it :: rest)
        = (sslWriteLoop tm orig (cur - it.result) (stepState s it) rest).map
            (addW 1 0 [(orig - cur, cur)] it.result) := by
      simp [sslWriteLoop, halive, hcur2, hstep]
    have halive2 : (stepState s it).aliveAndKicking = true := by
      rw [stepState_alive]
      exact halive
    by_cases hdone : cur - it.result ≤ 0
    · have hres : it.result = cur := by omega
      refine ⟨addW 1 0 [(orig - cur, cur)] it.result ⟨orig, stepState s it, 0, 0, false, 0, []⟩,
        ?_, rfl, ?_, rfl, ?_⟩
      · rw [hloop, sslWriteLoop_done tm orig _ _ rest halive2 hdone]
        rfl
      · simp [addW, hres]
      · intro c hc
        simp only [addW, List.append_nil, List.mem_singleton] at hc
        subst hc
        constructor <;> omega
    · have h0 : 0 < cur - it.result := by omega
      obtain ⟨out', hout', hret', hsent', hdead', hcalls'⟩ :=
        ih (cur - it.result) (stepState s it) halive2 h0 hrest
      refine ⟨addW 1 0 [(orig - cur, cur)] it.result out', ?_, ?_, ?_, ?_, ?_⟩
      · rw [hloop, hout']
        rfl
      · simpa [addW] using hret'
      · simp only [addW]
        rw [hsent']
        omega
      · simpa [addW] using hdead'
      · intro c hc
        simp only [addW, List.cons_append, List.nil_append, List.mem_cons] at hc
        rcases hc with hc | hc
        · subst hc
          constructor <;> omega
        · exact hcalls' c hc

/-- C4: a write of length L on a trace where the engine accepts arbitrary
positive partial chunks summing to L completes with exactly L reported, the
bytes accepted across the Success classifications sum to L, and every
reissued engine call covers exactly the remaining suffix of the buffer
(call offset + remaining length = L, with a positive remainder). -/
theorem partial_write_totals (tm len : Int) (s : AppData) (tr : List EngineIter)
    (halive : s.aliveAndKicking = true) (hlen : 0 < len)
    (hg : chunksGood len tr = true) :
    (sslWrite tm len s tr).map WriteResult.ret = some len
    ∧ (sslWrite tm len s tr).map WriteResult.sent = some len
    ∧ (sslWrite tm len s tr).map WriteResult.dead = some false
    ∧ ∀ c ∈ ((sslWrite tm len s tr).map WriteResult.calls).getD [],
        c.1 + c.2 = len ∧ 0 < c.2 := by
  obtain ⟨out, hout, h1, h2, h3, h4⟩ := sslWriteLoop_chunks tm len tr len s halive hlen hg
  have hw : sslWrite tm len s tr = some out := by
    rw [sslWrite, if_neg (by omega)]
    exact hout
  rw [hw]
  exact ⟨by simp [h1], by simp [h2], by simp [h3], by simpa using h4⟩

/-- Witness for C4: a five-byte write accepted in chunks of two then three
bytes, with the second call reissued at offset 2 with the three remaining
bytes. -/
theorem partial_write_totals_witness :
    (sslWrite (-1) 5 ⟨true, 0, 0⟩
        [⟨true, false, false, false, 2, 0, 0, true, ⟨0, .ok⟩, false, ⟨0, .closed⟩, false⟩,
         ⟨true, false, false, false, 3, 0, 0, true, ⟨0, .ok⟩, false, ⟨0, .closed⟩, false⟩]).map
      WriteResult.ret = some 5
    ∧ ((2 : Int), (3 : Int)).1 + ((2 : Int), (3 : Int)).2 = 5
    ∧ (0 : Int) < ((2 : Int), (3 : Int)).2 :=
  ⟨(partial_write_totals (-1) 5 ⟨true, 0, 0⟩
      [⟨true, false, false, false, 2, 0, 0, true, ⟨0, .ok⟩, false, ⟨0, .closed⟩, false⟩,
       ⟨true, false, false, false, 3, 0, 0, true, ⟨0, .ok⟩, false, ⟨0, .closed⟩, false⟩]
      rfl (by decide) (by decide)).1,
   ((partial_write_totals (-1) 5 ⟨true, 0, 0⟩
      [⟨true, false, false, false, 2, 0, 0, true, ⟨0, .ok⟩, false, ⟨0, .closed⟩, false⟩,
       ⟨true, false, false, false, 3, 0, 0, true, ⟨0, .ok⟩, false, ⟨0, .closed⟩, false⟩]
      rfl (by decide) (by decide)).2.2.2 (2, 3) (by decide)).1,
   ((partial_write_totals (-1) 5 ⟨true, 0, 0⟩
      [⟨true, false, false, false, 2, 0, 0, true, ⟨0, .ok⟩, false, ⟨0, .closed⟩, false⟩,
       ⟨true, false, false, false, 3, 0, 0, true, ⟨0, .ok⟩, false, ⟨0, .closed⟩, false⟩]
      rfl (by decide) (by decide)).2.2.2 (2, 3) (by decide)).2⟩

end Conscrypt
